import Mathlib

set_option maxRecDepth 100000

/-!
Verification of the shift-detection and alerting engine of the
`lschwob/polymarket` tracker backend.

The detector (`backend/services/alert_detection.py`), the snapshot
ingestion normalization (`backend/services/snapshot_service.py`), the
alert acknowledgment and market deletion endpoints (`backend/main.py`,
`backend/database.py`) and the WebSocket broadcast registry
(`backend/services/websocket_service.py`) are embedded as pure Lean
functions.  Probabilities, prices and volumes are modelled as rationals
(`ℚ`), timestamps as integers (an injectable clock), SQLAlchemy rows as
structures, and database tables as lists of rows.
-/

/-- A row of the `snapshot` table (`database.py`, class `Snapshot`):
`market_id`, `outcome_id` foreign keys, probability `prob`, nullable
`volume` and `liquidity`, timestamp `ts`. -/
structure SnapRow where
  market_id : Int
  outcome_id : Int
  prob : ℚ
  volume : Option ℚ
  liquidity : Option ℚ
  ts : Int
deriving DecidableEq, Repr

/-- A row of the `alert` table (`database.py`, class `Alert`). -/
structure AlertRow where
  id : Int
  market_id : Int
  outcome_id : Option Int
  prev_prob : ℚ
  new_prob : ℚ
  delta : ℚ
  delta_percent : ℚ
  volume : Option ℚ
  volume_impact : Option ℚ
  ts : Int
  status : String
deriving DecidableEq, Repr

/-- One dict of the list returned by `detect_shifts`
(`alert_detection.py`, lines 86-95). -/
structure Candidate where
  market_id : Int
  outcome_id : Int
  prev_prob : ℚ
  new_prob : ℚ
  delta : ℚ
  delta_percent : ℚ
  volume : ℚ
  volume_impact : ℚ
deriving DecidableEq, Repr

/-- The configuration constants of `config.py` consumed by
`detect_shifts`.  Durations (`alert_cooldown`, `shift_window`) are in the
same abstract time unit as `SnapRow.ts`. -/
structure DetectConfig where
  absolute_delta_threshold : ℚ
  relative_delta_threshold : ℚ
  min_volume_threshold : ℚ
  alert_cooldown : Int
  shift_window : Int
deriving Repr

/-- Python truthiness of a nullable float: `None` and `0.0` are falsy,
every other value is truthy. -/
def pyTruthy (v : Option ℚ) : Bool :=
  match v with
  | none => false
  | some x => x != 0

/-- The volume filter of `detect_shifts` line 68:
`if latest.volume and latest.volume < MIN_VOLUME_THRESHOLD: continue`.
Note the Python truthiness test: a missing (`None`) volume and a volume
equal to `0.0` both fail the first conjunct, so they never block. -/
def volumeBlocked (v : Option ℚ) (minVol : ℚ) : Bool :=
  match v with
  | none => false
  | some x => x != 0 && decide (x < minVol)

/-- Newest-first ordering on snapshots, as produced by the query
`order_by(Snapshot.ts.desc())`. -/
def tsGE (a b : SnapRow) : Prop := b.ts ≤ a.ts

instance : DecidableRel tsGE := fun a b => inferInstanceAs (Decidable (b.ts ≤ a.ts))

instance : IsTotal SnapRow tsGE := ⟨fun a b => le_total b.ts a.ts⟩

instance : IsTrans SnapRow tsGE := ⟨fun _ _ _ h1 h2 => le_trans h2 h1⟩

/-- The query of `detect_shifts` lines 24-30: all snapshots of the
market with `ts >= cutoff_time`, ordered newest first.  (The SQL sort is
modelled by a stable insertion sort on the stored order.) -/
def recentSnapshots (snaps : List SnapRow) (mid cutoff : Int) : List SnapRow :=
  List.insertionSort tsGE
    (snaps.filter (fun s => decide (s.market_id = mid ∧ cutoff ≤ s.ts)))

/-- Keys of a Python dict built by first-seen insertion
(`outcome_snapshots` grouping loop, lines 36-41): the distinct values in
order of first appearance. -/
def firstKeys : List Int → List Int
  | [] => []
  | x :: xs => x :: firstKeys (xs.filter (fun y => y != x))
termination_by l => l.length
decreasing_by
  simp only [List.length_cons]
  exact Nat.lt_succ_of_le (xs.length_filter_le _)

/-- The body of the per-outcome loop of `detect_shifts` (lines 45-95)
for one `outcome_id`.  `recent` is the newest-first query result;
`latest = snapshots[0]`, `previous = snapshots[-1]`; cooldown lookup,
volume filter, delta computation and threshold test follow the source
order.  Returns the candidate dict appended for this outcome, if any. -/
def evalOutcome (cfg : DetectConfig) (alerts : List AlertRow) (mid now : Int)
    (recent : List SnapRow) (oid : Int) : Option Candidate :=
  match recent.filter (fun s => decide (s.outcome_id = oid)) with
  | [] => none
  | [_] => none
  | latest :: s1 :: rest =>
    -- cooldown: an active alert for (market, outcome) younger than the cutoff
    if alerts.any (fun a => decide (a.market_id = mid ∧ a.outcome_id = some oid ∧
        now - cfg.alert_cooldown ≤ a.ts ∧ a.status = "active")) then
      none
    else if volumeBlocked latest.volume cfg.min_volume_threshold then
      none
    else
      let previous := (latest :: s1 :: rest).getLast (by simp)
      let prev_prob := previous.prob
      let new_prob := latest.prob
      let delta := new_prob - prev_prob
      let delta_percent := if 0 < prev_prob then delta / prev_prob * 100 else 0
      let absolute_shift := cfg.absolute_delta_threshold ≤ |delta|
      let relative_shift := cfg.relative_delta_threshold * 100 ≤ |delta_percent|
      if absolute_shift ∨ relative_shift then
        let volume := latest.volume.getD 0
        some { market_id := mid, outcome_id := oid, prev_prob := prev_prob,
               new_prob := new_prob, delta := delta, delta_percent := delta_percent,
               volume := volume, volume_impact := |delta| * volume }
      else none

/-- `detect_shifts(db, market_id)` (`alert_detection.py`).  The database
session is replaced by the list of tracked-market ids, the snapshot table
and the alert table; `now` stands for `datetime.utcnow()`. -/
def detect_shifts (cfg : DetectConfig) (markets : List Int) (snaps : List SnapRow)
    (alerts : List AlertRow) (mid now : Int) : List Candidate :=
  if mid ∈ markets then
    let recent := recentSnapshots snaps mid (now - cfg.shift_window)
    if recent.length < 2 then []
    else (firstKeys (recent.map (·.outcome_id))).filterMap
      (evalOutcome cfg alerts mid now recent)
  else []

section Fixtures

/-- Default configuration of `config.py` (thresholds 0.05 and 0.20,
volume floor 100, cooldown 15 minutes, window 1 hour) with minutes as
the time unit. -/
def cfg0 : DetectConfig :=
  { absolute_delta_threshold := 1/20, relative_delta_threshold := 1/5,
    min_volume_threshold := 100, alert_cooldown := 15, shift_window := 60 }

/-- Outcome 7 moved 0.30 → 0.40 with volume 500 (spec §8 scenario 1). -/
def snapsW1 : List SnapRow :=
  [ { market_id := 1, outcome_id := 7, prob := 2/5, volume := some 500,
      liquidity := none, ts := 50 },
    { market_id := 1, outcome_id := 7, prob := 3/10, volume := some 500,
      liquidity := none, ts := 10 } ]

/-- The candidate `detect_shifts` emits on `snapsW1`. -/
def candW1 : Candidate :=
  { market_id := 1, outcome_id := 7, prev_prob := 3/10, new_prob := 2/5,
    delta := 1/10, delta_percent := 100/3, volume := 500, volume_impact := 50 }

/-- `snapsW1` plus an identical move on outcome 8. -/
def snapsW2 : List SnapRow :=
  snapsW1 ++
  [ { market_id := 1, outcome_id := 8, prob := 2/5, volume := some 500,
      liquidity := none, ts := 50 },
    { market_id := 1, outcome_id := 8, prob := 3/10, volume := some 500,
      liquidity := none, ts := 10 } ]

/-- An active alert for (market 1, outcome 7) at time 55. -/
def alertW : AlertRow :=
  { id := 1, market_id := 1, outcome_id := some 7, prev_prob := 3/10,
    new_prob := 2/5, delta := 1/10, delta_percent := 100/3,
    volume := some 500, volume_impact := some 50, ts := 55, status := "active" }

/-- The outcome-8 candidate `detect_shifts` emits on `snapsW2`. -/
def candW2 : Candidate :=
  { market_id := 1, outcome_id := 8, prev_prob := 3/10, new_prob := 2/5,
    delta := 1/10, delta_percent := 100/3, volume := 500, volume_impact := 50 }

/-- Outcome 7 moved as in scenario 1 but with volume exactly 0 on the
latest snapshot: non-null, strictly below the floor of 100. -/
def snapsC3 : List SnapRow :=
  [ { market_id := 1, outcome_id := 7, prob := 2/5, volume := some 0,
      liquidity := none, ts := 50 },
    { market_id := 1, outcome_id := 7, prob := 3/10, volume := some 0,
      liquidity := none, ts := 10 } ]

/-- Outcome 9 rising from probability exactly 0. -/
def snapsW4 : List SnapRow :=
  [ { market_id := 1, outcome_id := 9, prob := 3/10, volume := some 500,
      liquidity := none, ts := 50 },
    { market_id := 1, outcome_id := 9, prob := 0, volume := some 500,
      liquidity := none, ts := 10 } ]

/-- The candidate `detect_shifts` emits on `snapsW4`. -/
def candW4 : Candidate :=
  { market_id := 1, outcome_id := 9, prev_prob := 0, new_prob := 3/10,
    delta := 3/10, delta_percent := 0, volume := 500, volume_impact := 150 }

end Fixtures

/-- The in-place mutation of `acknowledge_alert` (`main.py` line 510):
the first alert row whose `id` matches gets `status = "acknowledged"`;
ids are a unique primary key, so at most one row matches. -/
def ackFirst : List AlertRow → Int → List AlertRow
  | [], _ => []
  | a :: rest, aid =>
    if a.id = aid then { a with status := "acknowledged" } :: rest
    else a :: ackFirst rest aid

/-- `POST /api/alerts/ack/{alert_id}` (`main.py` lines 503-512): look the
alert up by id, raise 404 (`.error ()`, no commit, hence no state change)
if absent, otherwise set its status to `"acknowledged"` and commit. -/
def acknowledge_alert (alerts : List AlertRow) (aid : Int) :
    Except Unit (List AlertRow) :=
  if alerts.any (fun a => decide (a.id = aid)) then .ok (ackFirst alerts aid)
  else .error ()

/-- The per-row guarantee of one acknowledge call: every field but
`status` is unchanged, `status` either stays or moves forward to
`"acknowledged"` (only on the matching id), and an already-acknowledged
row stays acknowledged. -/
def ackPreserves (aid : Int) (a a2 : AlertRow) : Prop :=
  a2.id = a.id ∧ a2.market_id = a.market_id ∧ a2.outcome_id = a.outcome_id ∧
  a2.prev_prob = a.prev_prob ∧ a2.new_prob = a.new_prob ∧ a2.delta = a.delta ∧
  a2.delta_percent = a.delta_percent ∧ a2.volume = a.volume ∧
  a2.volume_impact = a.volume_impact ∧ a2.ts = a.ts ∧
  (a2.status = a.status ∨ (a.id = aid ∧ a2.status = "acknowledged")) ∧
  (a.status = "acknowledged" → a2.status = "acknowledged")

/-- A row of the `tracked_market` table (`database.py`, class
`TrackedMarket`), reduced to the fields the embedded operations read. -/
structure MarketRow where
  id : Int
  market_slug : String
deriving DecidableEq, Repr

/-- A row of the `outcome` table (`database.py`, class `Outcome`). -/
structure OutcomeRow where
  id : Int
  market_id : Int
  outcome_id : String
  name : Option String
deriving DecidableEq, Repr

/-- The four persistent tables the embedded endpoints touch. -/
structure Store where
  markets : List MarketRow
  outcomes : List OutcomeRow
  snapshots : List SnapRow
  alerts : List AlertRow
deriving DecidableEq, Repr

/-- `DELETE /api/tracked-markets/{market_id}` (`main.py` lines 249-258):
404 if the market does not exist, else `db.delete(market)` + commit.
The ORM cascade configuration (`database.py`) drives what the delete
removes: `TrackedMarket.outcomes` and `TrackedMarket.snapshots` carry
`cascade="all, delete-orphan"` and `Outcome.snapshots` likewise, so the
market's outcome rows and the snapshots reachable through either
relationship are deleted with it.  `Alert` only declares a many-to-one
`relationship("TrackedMarket")` with no cascade from the market side, the
`ForeignKey` has no `ondelete`, and SQLite foreign keys are not enabled
on the engine — so alert rows are left untouched. -/
def delete_tracked_market (st : Store) (mid : Int) : Except Unit Store :=
  if st.markets.any (fun m => decide (m.id = mid)) then
    let deadOutcomes := st.outcomes.filter (fun o => decide (o.market_id = mid))
    .ok { markets := st.markets.filter (fun m => decide (m.id ≠ mid)),
          outcomes := st.outcomes.filter (fun o => decide (o.market_id ≠ mid)),
          snapshots := st.snapshots.filter (fun s => decide (s.market_id ≠ mid ∧
            ∀ o ∈ deadOutcomes, o.id ≠ s.outcome_id)),
          alerts := st.alerts }
  else .error ()

/-- A one-market store carrying an outcome, a snapshot and an alert that
all reference market 1. -/
def storeC9 : Store :=
  { markets := [{ id := 1, market_slug := "m" }],
    outcomes := [{ id := 10, market_id := 1, outcome_id := "tok", name := none }],
    snapshots := [{ market_id := 1, outcome_id := 10, prob := 1/2,
                    volume := none, liquidity := none, ts := 0 }],
    alerts := [{ id := 5, market_id := 1, outcome_id := some 10,
                 prev_prob := 3/10, new_prob := 2/5, delta := 1/10,
                 delta_percent := 100/3, volume := some 500,
                 volume_impact := some 50, ts := 0, status := "active" }] }

/-- `storeC9` after deleting market 1: outcome and snapshot are gone,
the alert row survives with a dangling `market_id = 1`. -/
def storeC9del : Store :=
  { markets := [], outcomes := [], snapshots := [], alerts := storeC9.alerts }

/-- Python truthiness of a nullable string: `None` and `""` are falsy. -/
def pyTruthyS (v : Option String) : Bool :=
  match v with
  | none => false
  | some s => s != ""

/-- Python `a or b` on nullable strings, as in
`outcome.get("id") or outcome.get("outcome_id")`. -/
def pyOrS (a b : Option String) : Option String :=
  if pyTruthyS a then a else b

/-- One outcome dict of the Gamma payload: keys `id` / `outcome_id`,
`title` / `name`, `price`.  An absent key and a JSON `null` are both
modelled as `none`. -/
structure GOutcome where
  id : Option String
  outcome_id : Option String
  title : Option String
  name : Option String
  price : Option ℚ
deriving DecidableEq, Repr

/-- One market dict of the Gamma payload. -/
structure GMarket where
  outcomes : List GOutcome
  volume : Option ℚ
  liquidity : Option ℚ
deriving DecidableEq, Repr

/-- The fetched event payload (`market_data`): either a `markets` array
or direct `outcomes` plus event-level `volume` / `liquidity`. -/
structure GMarketData where
  markets : List GMarket
  outcomes : List GOutcome
  volume : Option ℚ
  liquidity : Option ℚ
deriving DecidableEq, Repr

/-- `float(outcome.get("price", 0) or 0)`: a missing price is 0, and a
price of 0 stays 0 through the `or`. -/
def effPrice (o : GOutcome) : ℚ :=
  match o.price with
  | none => 0
  | some p => p

/-- `market.get("volume") or market_data.get("volume", 0)` — Python `or`
falls through both on a missing key and on a value of `0`. -/
def effVolume (m : GMarket) (md : GMarketData) : ℚ :=
  match m.volume with
  | some v => if v ≠ 0 then v else md.volume.getD 0
  | none => md.volume.getD 0

/-- `market.get("liquidity") or market_data.get("liquidity", 0)`. -/
def effLiquidity (m : GMarket) (md : GMarketData) : ℚ :=
  match m.liquidity with
  | some v => if v ≠ 0 then v else md.liquidity.getD 0
  | none => md.liquidity.getD 0

/-- One output dict of `extract_snapshot_data`
(`snapshot_service.py` lines 41-47). -/
structure SnapData where
  outcome_id : Option String
  outcome_name : Option String
  prob : ℚ
  volume : ℚ
  liquidity : Option ℚ
deriving DecidableEq, Repr

/-- `markets = market_data.get("markets", []);`
`if not markets and market_data.get("outcomes"): markets = [market_data]`
(`snapshot_service.py` lines 25-27): with no markets array but direct
outcomes, the event dict itself plays the part of the single market. -/
def effMarkets (md : GMarketData) : List GMarket :=
  if md.markets ≠ [] then md.markets
  else if md.outcomes ≠ [] then
    [{ outcomes := md.outcomes, volume := md.volume, liquidity := md.liquidity }]
  else []

/-- The per-market body of `extract_snapshot_data` (lines 29-47):
market-level `volume` / `liquidity` and the price total are computed once
per market dict, then one snapshot dict is emitted per outcome, with
`prob = price / total_price` when the total is positive, the uniform
`1 / len(outcomes)` otherwise, and
`liquidity` stored as `float(liquidity) if liquidity else None`. -/
def extractMarket (md : GMarketData) (m : GMarket) : List SnapData :=
  let volume := effVolume m md
  let liquidity := effLiquidity m md
  let total_price := (m.outcomes.map effPrice).sum
  m.outcomes.map (fun o =>
    { outcome_id := pyOrS o.id o.outcome_id,
      outcome_name := pyOrS o.title o.name,
      prob := if 0 < total_price then effPrice o / total_price
        else (if m.outcomes.length ≠ 0 then 1 / (m.outcomes.length : ℚ) else 0),
      volume := volume,
      liquidity := if liquidity ≠ 0 then some liquidity else none })

/-- `extract_snapshot_data(market_data)` (`snapshot_service.py`). -/
def extract_snapshot_data (md : GMarketData) : List SnapData :=
  (effMarkets md).flatMap (extractMarket md)

/-- `str(snap_data["outcome_id"])`: Python renders `None` as `"None"`. -/
def pyStr (v : Option String) : String :=
  match v with
  | none => "None"
  | some s => s

/-- The per-snapshot loop of `create_snapshot_for_market`
(`snapshot_service.py` lines 70-95), with the database session made
explicit: for each extracted dict, get or lazily create the outcome row
(`db.flush()` hands out ids from `nextId` upward), then build a
`Snapshot` row whose `ts` is a fresh `datetime.utcnow()` call — one call
per row (line 93), modelled by the injectable `clock` applied to a call
counter `k`.  Returns the outcome table, the snapshot rows to commit,
and the advanced call counter. -/
def ingestLoop (clock : Nat → Int) (mid : Int) :
    List SnapData → List OutcomeRow → Int → Nat →
      List OutcomeRow × List SnapRow × Nat
  | [], outs, _, k => (outs, [], k)
  | sd :: rest, outs, nextId, k =>
    let key := pyStr sd.outcome_id
    match outs.find? (fun o => decide (o.market_id = mid ∧ o.outcome_id = key)) with
    | some o =>
      -- Snapshot(market_id, outcome_id, prob, volume, liquidity, ts=utcnow())
      let row : SnapRow := ⟨mid, o.id, sd.prob, some sd.volume, sd.liquidity, clock k⟩
      let r := ingestLoop clock mid rest outs nextId (k + 1)
      (r.1, row :: r.2.1, r.2.2)
    | none =>
      -- Outcome(id from flush, market_id, outcome_id, name), then its Snapshot
      let newOut : OutcomeRow := ⟨nextId, mid, key, sd.outcome_name⟩
      let row : SnapRow := ⟨mid, nextId, sd.prob, some sd.volume, sd.liquidity, clock k⟩
      let r := ingestLoop clock mid rest (outs ++ [newOut]) (nextId + 1) (k + 1)
      (r.1, row :: r.2.1, r.2.2)

/-- `create_snapshot_for_market(db, market_id)` (`snapshot_service.py`
lines 51-97), given the already-fetched payload (`fetch_market_data` is
the external Market Data Source; `none` means unavailable, so no
writes).  All produced snapshot rows enter the store through the single
final `db.commit()`. -/
def create_snapshot_for_market (clock : Nat → Int) (st : Store) (mid : Int)
    (market_data : Option GMarketData) (nextOutcomeId : Int) (k : Nat) :
    Store × Nat :=
  if st.markets.any (fun m => decide (m.id = mid)) then
    match market_data with
    | none => (st, k)
    | some md =>
      let sds := extract_snapshot_data md
      let r := ingestLoop clock mid sds st.outcomes nextOutcomeId k
      ({ st with outcomes := r.1, snapshots := st.snapshots ++ r.2.1 }, r.2.2)
  else (st, k)

/-- The `ConnectionManager` registry (`websocket_service.py` lines
7-16): `active_connections` maps a market id to its set of attached
sockets (socket handles as naturals, sets as duplicate-free lists),
`connection_markets` maps a socket back to its market, and
`broadcast_tasks` records for which markets a broadcast-loop task
exists.  A dict key that is absent and a key mapped to an empty set are
conflated into the total-function default (`[]` / `none` / `false`):
`connect` always (re)populates an entry before touching it and
`disconnect` pops entries exactly when they empty, so on every reachable
state the two views agree (see `cm_connection_market_mem`, which also
shows the `KeyError`-free-ness of `active_connections[market_id]`). -/
structure CMState where
  active_connections : Int → List Nat
  connection_markets : Nat → Option Int
  broadcast_tasks : Int → Bool

/-- The registry as built by `ConnectionManager.__init__`. -/
def CMState.init : CMState :=
  { active_connections := fun _ => [],
    connection_markets := fun _ => none,
    broadcast_tasks := fun _ => false }

/-- `ConnectionManager.connect` (lines 18-32): ensure the market's
entry, add the socket to its set, record the reverse mapping, and start
a broadcast task only `if market_id not in self.broadcast_tasks`. -/
def CMState.connect (st : CMState) (ws : Nat) (mid : Int) : CMState :=
  let conns := st.active_connections mid
  let conns2 := if ws ∈ conns then conns else conns ++ [ws]
  { active_connections := fun m => if m = mid then conns2 else st.active_connections m,
    connection_markets := fun w => if w = ws then some mid else st.connection_markets w,
    broadcast_tasks :=
      if st.broadcast_tasks mid then st.broadcast_tasks
      else fun m => if m = mid then true else st.broadcast_tasks m }

/-- `ConnectionManager.disconnect` (lines 34-46).  The guard is
`if market_id:` — Python truthiness, so both an unknown socket (`None`)
and the market id `0` skip the whole body.  Otherwise the socket is
discarded from the market's set and popped from `connection_markets`;
if the set is left falsy, the task is popped and cancelled and the
market's entry is popped. -/
def CMState.disconnect (st : CMState) (ws : Nat) : CMState :=
  match st.connection_markets ws with
  | none => st
  | some mid =>
    if mid = 0 then st
    else
      let conns2 := (st.active_connections mid).filter (fun w => decide (w ≠ ws))
      let cm2 := fun w => if w = ws then none else st.connection_markets w
      if conns2.isEmpty then
        { active_connections := fun m => if m = mid then [] else st.active_connections m,
          connection_markets := cm2,
          broadcast_tasks := fun m => if m = mid then false else st.broadcast_tasks m }
      else
        { active_connections := fun m => if m = mid then conns2 else st.active_connections m,
          connection_markets := cm2,
          broadcast_tasks := st.broadcast_tasks }

/-- Registry states reachable from process start through attach /
detach operations. -/
inductive CMReachable : CMState → Prop where
  | init : CMReachable CMState.init
  | connect : ∀ (st : CMState) (ws : Nat) (mid : Int), CMReachable st →
      CMReachable (st.connect ws mid)
  | disconnect : ∀ (st : CMState) (ws : Nat), CMReachable st →
      CMReachable (st.disconnect ws)

/-- The lifecycle invariant: a broadcast-loop task exists for a market
iff the market has at least one attached subscriber. -/
def CMInv (st : CMState) : Prop :=
  ∀ m : Int, st.broadcast_tasks m = true ↔ st.active_connections m ≠ []

/-- An outcome dict fixture. -/
def oC5a : GOutcome :=
  { id := some "a", outcome_id := none, title := some "Yes", name := none, price := some 1 }

/-- The second outcome fixture. -/
def oC5b : GOutcome :=
  { id := some "b", outcome_id := none, title := some "Yes", name := none, price := some 1 }

/-- A Gamma event whose `markets` array holds two one-outcome markets,
each with raw price 1. -/
def mdC5 : GMarketData :=
  { markets :=
      [ { outcomes := [oC5a], volume := none, liquidity := none },
        { outcomes := [oC5b], volume := none, liquidity := none } ],
    outcomes := [], volume := none, liquidity := none }

/-- The "Yes" outcome fixture priced 1. -/
def oW5a : GOutcome :=
  { id := some "a", outcome_id := none, title := some "Yes", name := none, price := some 1 }

/-- The "No" outcome fixture priced 3. -/
def oW5b : GOutcome :=
  { id := some "b", outcome_id := none, title := some "No", name := none, price := some 3 }

/-- The single market record of `mdW5`: outcomes priced 1 and 3, market
volume 5, liquidity 2. -/
def mW5 : GMarket :=
  { outcomes := [oW5a, oW5b], volume := some 5, liquidity := some 2 }

/-- A single-market event wrapping `mW5`. -/
def mdW5 : GMarketData :=
  { markets := [mW5], outcomes := [], volume := none, liquidity := none }

/-- A store tracking market 1 with no outcomes or snapshots yet. -/
def storeC6 : Store :=
  { markets := [{ id := 1, market_slug := "m" }],
    outcomes := [], snapshots := [], alerts := [] }

/-- A clock frozen at 42: `utcnow()` returns the same instant on every
call during the ingestion. -/
def clock42 : Nat → Int := fun _ => 42

/-- In a newest-first list, the head carries the maximal timestamp. -/
lemma pairwise_head_max {l : List SnapRow} (hp : l.Pairwise tsGE) (hne : l ≠ []) :
    ∀ s ∈ l, s.ts ≤ (l.head hne).ts := by
  match l with
  | x :: xs =>
    intro s hs
    rcases List.mem_cons.mp hs with rfl | hs
    · exact le_refl _
    · exact (List.pairwise_cons.mp hp).1 s hs

/-- In a newest-first list, the last element carries the minimal timestamp. -/
lemma pairwise_getLast_min {l : List SnapRow} (hp : l.Pairwise tsGE) (hne : l ≠ []) :
    ∀ s ∈ l, (l.getLast hne).ts ≤ s.ts := by
  induction l with
  | nil => exact absurd rfl hne
  | cons x xs ih =>
    intro s hs
    match hxs : xs, hs with
    | [], hs =>
      rcases List.mem_singleton.mp hs with rfl
      exact le_refl _
    | y :: ys, hs =>
      rw [List.getLast_cons (by simp)]
      have hrel := (List.pairwise_cons.mp hp).1
      rcases List.mem_cons.mp hs with rfl | hs2
      · exact le_trans (hrel _ (List.getLast_mem _)) (le_refl s.ts)
      · exact ih (List.pairwise_cons.mp hp).2 (by simp) s hs2

/-- Full characterization of a successful pass of the per-outcome loop:
every emitted candidate passed the cooldown and volume gates, compares
the window extremes of its outcome group, and satisfies the OR-trigger. -/
lemma evalOutcome_eq_some {cfg : DetectConfig} {alerts : List AlertRow}
    {mid now : Int} {recent : List SnapRow} {oid : Int} {c : Candidate}
    (h : evalOutcome cfg alerts mid now recent oid = some c) :
    ∃ (grp : List SnapRow) (hne : grp ≠ []),
      grp = recent.filter (fun s => decide (s.outcome_id = oid)) ∧
      2 ≤ grp.length ∧
      (∀ a ∈ alerts, ¬(a.market_id = mid ∧ a.outcome_id = some oid ∧
          now - cfg.alert_cooldown ≤ a.ts ∧ a.status = "active")) ∧
      volumeBlocked (grp.head hne).volume cfg.min_volume_threshold = false ∧
      c.market_id = mid ∧
      c.outcome_id = oid ∧
      c.prev_prob = (grp.getLast hne).prob ∧
      c.new_prob = (grp.head hne).prob ∧
      c.delta = (grp.head hne).prob - (grp.getLast hne).prob ∧
      c.delta_percent = (if 0 < c.prev_prob then c.delta / c.prev_prob * 100 else 0) ∧
      c.volume = ((grp.head hne).volume).getD 0 ∧
      c.volume_impact = |c.delta| * c.volume ∧
      (cfg.absolute_delta_threshold ≤ |c.delta| ∨
        cfg.relative_delta_threshold * 100 ≤ |c.delta_percent|) := by
  unfold evalOutcome at h
  split at h
  · exact absurd h (by simp)
  · exact absurd h (by simp)
  case _ latest s1 rest heq =>
    split at h
    · exact absurd h (by simp)
    case _ hany =>
      split at h
      · exact absurd h (by simp)
      case _ hvol =>
        dsimp only [] at h
        split at h
        case _ hdp =>
          split at h
          case _ htrig =>
            cases h
            refine ⟨latest :: s1 :: rest, by simp, heq.symm, by simp, ?_, ?_,
              rfl, rfl, rfl, rfl, rfl, ?_, rfl, rfl, ?_⟩
            · intro a ha hP
              exact hany (List.any_eq_true.mpr ⟨a, ha, decide_eq_true hP⟩)
            · simpa using hvol
            · exact (if_pos hdp).symm
            · simpa using htrig
          case _ => exact absurd h (by simp)
        case _ hdp =>
          split at h
          case _ htrig =>
            cases h
            refine ⟨latest :: s1 :: rest, by simp, heq.symm, by simp, ?_, ?_,
              rfl, rfl, rfl, rfl, rfl, ?_, rfl, rfl, ?_⟩
            · intro a ha hP
              exact hany (List.any_eq_true.mpr ⟨a, ha, decide_eq_true hP⟩)
            · simpa using hvol
            · exact (if_neg hdp).symm
            · simpa using htrig
          case _ => exact absurd h (by simp)

/-- Every returned candidate comes from one pass of the per-outcome loop. -/
lemma mem_detect_shifts {cfg : DetectConfig} {markets : List Int}
    {snaps : List SnapRow} {alerts : List AlertRow} {mid now : Int} {c : Candidate}
    (hc : c ∈ detect_shifts cfg markets snaps alerts mid now) :
    ∃ oid, evalOutcome cfg alerts mid now
      (recentSnapshots snaps mid (now - cfg.shift_window)) oid = some c := by
  unfold detect_shifts at hc
  split at hc
  · dsimp only [] at hc
    split at hc
    · exact absurd hc (by simp)
    · obtain ⟨oid, _, heval⟩ := List.mem_filterMap.mp hc
      exact ⟨oid, heval⟩
  · exact absurd hc (by simp)

lemma recentSnapshots_sorted (snaps : List SnapRow) (mid cutoff : Int) :
    (recentSnapshots snaps mid cutoff).Pairwise tsGE :=
  List.sorted_insertionSort tsGE _

lemma mem_recentSnapshots {snaps : List SnapRow} {mid cutoff : Int} {s : SnapRow} :
    s ∈ recentSnapshots snaps mid cutoff ↔
      s ∈ snaps ∧ s.market_id = mid ∧ cutoff ≤ s.ts := by
  unfold recentSnapshots
  rw [(List.perm_insertionSort tsGE _).mem_iff]
  simp [List.mem_filter, and_assoc]

/-- If an active alert inside the cooldown window exists for the
(market, outcome) pair, the per-outcome loop bails out before any
threshold is evaluated. -/
lemma evalOutcome_cooldown_none {cfg : DetectConfig} {alerts : List AlertRow}
    {mid now : Int} {recent : List SnapRow} {oid : Int}
    (hcool : ∃ a ∈ alerts, a.market_id = mid ∧ a.outcome_id = some oid ∧
      now - cfg.alert_cooldown ≤ a.ts ∧ a.status = "active") :
    evalOutcome cfg alerts mid now recent oid = none := by
  obtain ⟨a, ha, hP⟩ := hcool
  unfold evalOutcome
  split
  · rfl
  · rfl
  · exact if_pos (List.any_eq_true.mpr ⟨a, ha, decide_eq_true hP⟩)

/-- If the latest snapshot's volume is truthy and below the floor, the
per-outcome loop bails out. -/
lemma evalOutcome_volume_blocked_none {cfg : DetectConfig} {alerts : List AlertRow}
    {mid now : Int} {recent : List SnapRow} {oid : Int} {latest s1 : SnapRow}
    {rest : List SnapRow}
    (heq : recent.filter (fun s => decide (s.outcome_id = oid)) = latest :: s1 :: rest)
    (hvol : volumeBlocked latest.volume cfg.min_volume_threshold = true) :
    evalOutcome cfg alerts mid now recent oid = none := by
  unfold evalOutcome
  rw [heq]
  split
  · rfl
  · rfl
  case _ hcc =>
    injection hcc with h1 hcc2
    injection hcc2 with h2 hcc3
    subst h1
    subst h2
    subst hcc3
    rw [if_pos hvol]
    split
    · rfl
    · rfl

/-- C1: every candidate returned by `detect_shifts` has
`delta = latest.prob - previous.prob` where `latest` is a newest and
`previous` an oldest snapshot of that outcome inside the lookback window
(window extremes), and satisfies the OR of the two threshold triggers. -/
theorem c1_detect_window_extremes_or_trigger
    (cfg : DetectConfig) (markets : List Int) (snaps : List SnapRow)
    (alerts : List AlertRow) (mid now : Int) :
    ∀ c ∈ detect_shifts cfg markets snaps alerts mid now,
      ∃ (grp : List SnapRow) (hne : grp ≠ []),
        (∀ s, s ∈ grp ↔ s ∈ snaps ∧ s.market_id = mid ∧
            now - cfg.shift_window ≤ s.ts ∧ s.outcome_id = c.outcome_id) ∧
        (∀ s ∈ grp, s.ts ≤ (grp.head hne).ts) ∧
        (∀ s ∈ grp, (grp.getLast hne).ts ≤ s.ts) ∧
        c.new_prob = (grp.head hne).prob ∧
        c.prev_prob = (grp.getLast hne).prob ∧
        c.delta = (grp.head hne).prob - (grp.getLast hne).prob ∧
        (cfg.absolute_delta_threshold ≤ |c.delta| ∨
          cfg.relative_delta_threshold * 100 ≤ |c.delta_percent|) := by
  intro c hc
  obtain ⟨oid, heval⟩ := mem_detect_shifts hc
  obtain ⟨grp, hne, hgrp, hlen, hcool, hvol, hmid, hoid, hprev, hnew, hdelta,
    hdp, hv, hvi, htrig⟩ := evalOutcome_eq_some heval
  have hsorted : grp.Pairwise tsGE := by
    rw [hgrp]
    exact List.Pairwise.sublist (List.filter_sublist _) (recentSnapshots_sorted snaps mid _)
  refine ⟨grp, hne, ?_, pairwise_head_max hsorted hne, pairwise_getLast_min hsorted hne,
    hnew, hprev, hdelta, htrig⟩
  intro s
  rw [hgrp, List.mem_filter, mem_recentSnapshots, hoid]
  simp [and_assoc]

/-- C2: an active alert for the (instrument, outcome) pair whose
timestamp lies within the cooldown window suppresses every new candidate
for that pair, regardless of the deltas. -/
theorem c2_cooldown_suppresses_pair
    (cfg : DetectConfig) (markets : List Int) (snaps : List SnapRow)
    (alerts : List AlertRow) (mid now oid : Int)
    (hcool : ∃ a ∈ alerts, a.market_id = mid ∧ a.outcome_id = some oid ∧
      now - cfg.alert_cooldown ≤ a.ts ∧ a.status = "active") :
    ∀ c ∈ detect_shifts cfg markets snaps alerts mid now, c.outcome_id ≠ oid := by
  intro c hc heq2
  obtain ⟨oid2, heval⟩ := mem_detect_shifts hc
  obtain ⟨_, _, _, _, _, _, _, hoid, _⟩ := evalOutcome_eq_some heval
  rw [heq2] at hoid
  rw [← hoid] at heval
  rw [evalOutcome_cooldown_none hcool] at heval
  exact absurd heval (by simp)

/-- C4: the zero-division guard: `delta_percent` is computed by division
only when the previous probability is positive, and a zero previous
probability yields `delta_percent = 0` exactly. -/
theorem c4_zero_prev_prob_zero_delta_percent
    (cfg : DetectConfig) (markets : List Int) (snaps : List SnapRow)
    (alerts : List AlertRow) (mid now : Int) :
    ∀ c ∈ detect_shifts cfg markets snaps alerts mid now,
      c.delta_percent = (if 0 < c.prev_prob then c.delta / c.prev_prob * 100 else 0) ∧
      (c.prev_prob = 0 → c.delta_percent = 0) := by
  intro c hc
  obtain ⟨oid, heval⟩ := mem_detect_shifts hc
  obtain ⟨_, _, _, _, _, _, _, _, _, _, _, hdp, _⟩ := evalOutcome_eq_some heval
  refine ⟨hdp, fun hz => ?_⟩
  rw [hdp, hz]
  simp


-- Spec §8 scenarios, checked by evaluation.
example :
    detect_shifts cfg0 [1] snapsW1 [] 1 60 = [candW1] := by
  with_unfolding_all decide

example :
    detect_shifts cfg0 [1]
      [ { market_id := 1, outcome_id := 7, prob := 21/100, volume := some 1000,
          liquidity := none, ts := 50 },
        { market_id := 1, outcome_id := 7, prob := 1/5, volume := some 1000,
          liquidity := none, ts := 10 } ]
      [] 1 60 = [] := by
  with_unfolding_all decide

/-- C1 witness: the theorem applied to scenario 1 and its candidate. -/
theorem c1_witness :
    ∃ (grp : List SnapRow) (hne : grp ≠ []),
      (∀ s, s ∈ grp ↔ s ∈ snapsW1 ∧ s.market_id = 1 ∧
          60 - cfg0.shift_window ≤ s.ts ∧ s.outcome_id = candW1.outcome_id) ∧
      (∀ s ∈ grp, s.ts ≤ (grp.head hne).ts) ∧
      (∀ s ∈ grp, (grp.getLast hne).ts ≤ s.ts) ∧
      candW1.new_prob = (grp.head hne).prob ∧
      candW1.prev_prob = (grp.getLast hne).prob ∧
      candW1.delta = (grp.head hne).prob - (grp.getLast hne).prob ∧
      (cfg0.absolute_delta_threshold ≤ |candW1.delta| ∨
        cfg0.relative_delta_threshold * 100 ≤ |candW1.delta_percent|) :=
  c1_detect_window_extremes_or_trigger cfg0 [1] snapsW1 [] 1 60 candW1
    (by with_unfolding_all decide)

/-- C2 witness: with an active outcome-7 alert 5 minutes old, the
outcome-8 candidate that does get emitted is not for outcome 7. -/
theorem c2_witness : candW2.outcome_id ≠ 7 :=
  c2_cooldown_suppresses_pair cfg0 [1] snapsW2 [alertW] 1 60 7
    (by with_unfolding_all decide) candW2 (by with_unfolding_all decide)

/-- C4 witness: the outcome-9 candidate rose from probability 0 and its
`delta_percent` is exactly 0. -/
theorem c4_witness :
    (candW4.delta_percent =
      (if 0 < candW4.prev_prob then candW4.delta / candW4.prev_prob * 100 else 0)) ∧
    (candW4.prev_prob = 0 → candW4.delta_percent = 0) :=
  c4_zero_prev_prob_zero_delta_percent cfg0 [1] snapsW4 [] 1 60 candW4
    (by with_unfolding_all decide)

/-- C3 counterexample: the latest in-window snapshot of outcome 7 has a
present (non-null) volume `0`, strictly below the floor of 100, yet
`detect_shifts` emits a candidate for outcome 7 — Python truthiness
(`latest.volume and ...`) treats the value `0.0` as missing and skips the
volume filter. -/
theorem c3_counterexample :
    (∃ c ∈ detect_shifts cfg0 [1] snapsC3 [] 1 60, c.outcome_id = 7) ∧
    ((recentSnapshots snapsC3 1 (60 - cfg0.shift_window)).filter
        (fun s => decide (s.outcome_id = 7))).head? =
      some { market_id := 1, outcome_id := 7, prob := 2/5, volume := some 0,
             liquidity := none, ts := 50 } ∧
    (0:ℚ) < cfg0.min_volume_threshold := by
  with_unfolding_all decide

/-- C3 amended: an outcome whose latest in-window snapshot has a present
*non-zero* volume strictly below `min_volume_threshold` is suppressed; a
missing (`None`) volume — and likewise a volume equal to `0`, which the
code's truthiness test treats like missing — applies no volume filtering
and contributes `0` to `volume_impact` (and to the recorded volume). -/
theorem c3_amended_volume_floor
    (cfg : DetectConfig) (markets : List Int) (snaps : List SnapRow)
    (alerts : List AlertRow) (mid now oid : Int) (latest s1 : SnapRow)
    (rest : List SnapRow)
    (heq : (recentSnapshots snaps mid (now - cfg.shift_window)).filter
      (fun s => decide (s.outcome_id = oid)) = latest :: s1 :: rest) :
    ((∃ v, latest.volume = some v ∧ v ≠ 0 ∧ v < cfg.min_volume_threshold) →
      ∀ c ∈ detect_shifts cfg markets snaps alerts mid now, c.outcome_id ≠ oid) ∧
    ((latest.volume = none ∨ latest.volume = some 0) →
      volumeBlocked latest.volume cfg.min_volume_threshold = false ∧
      ∀ c ∈ detect_shifts cfg markets snaps alerts mid now,
        c.outcome_id = oid → c.volume = 0 ∧ c.volume_impact = 0) := by
  constructor
  · rintro ⟨v, hvs, hvnz, hvlt⟩ c hc heqoid
    obtain ⟨oid2, heval⟩ := mem_detect_shifts hc
    obtain ⟨_, _, _, _, _, _, _, hoid, _⟩ := evalOutcome_eq_some heval
    rw [heqoid] at hoid
    rw [← hoid] at heval
    have hblocked : volumeBlocked latest.volume cfg.min_volume_threshold = true := by
      rw [hvs]
      simp [volumeBlocked, hvnz, hvlt]
    rw [evalOutcome_volume_blocked_none heq hblocked] at heval
    exact absurd heval (by simp)
  · intro hz
    have hfalse : volumeBlocked latest.volume cfg.min_volume_threshold = false := by
      rcases hz with h | h <;> simp [volumeBlocked, h]
    refine ⟨hfalse, ?_⟩
    intro c hc heqoid
    obtain ⟨oid2, heval⟩ := mem_detect_shifts hc
    obtain ⟨grp, hne, hgrp, _, _, _, _, hoid, _, _, _, _, hv, hvi, _⟩ :=
      evalOutcome_eq_some heval
    rw [heqoid] at hoid
    rw [← hoid] at hgrp
    rw [heq] at hgrp
    subst hgrp
    have hv0 : c.volume = 0 := by
      rw [hv]
      rcases hz with h | h <;> simp [h]
    exact ⟨hv0, by rw [hvi, hv0, mul_zero]⟩

/-- C3 witness: the amended theorem applied to the zero-volume fixture. -/
theorem c3_witness :
    ((∃ v, (SnapRow.mk 1 7 (2/5) (some 0) none 50).volume = some v ∧ v ≠ 0 ∧
        v < cfg0.min_volume_threshold) →
      ∀ c ∈ detect_shifts cfg0 [1] snapsC3 [] 1 60, c.outcome_id ≠ 7) ∧
    (((SnapRow.mk 1 7 (2/5) (some 0) none 50).volume = none ∨
        (SnapRow.mk 1 7 (2/5) (some 0) none 50).volume = some 0) →
      volumeBlocked (SnapRow.mk 1 7 (2/5) (some 0) none 50).volume
        cfg0.min_volume_threshold = false ∧
      ∀ c ∈ detect_shifts cfg0 [1] snapsC3 [] 1 60,
        c.outcome_id = 7 → c.volume = 0 ∧ c.volume_impact = 0) :=
  c3_amended_volume_floor cfg0 [1] snapsC3 [] 1 60 7
    { market_id := 1, outcome_id := 7, prob := 2/5, volume := some 0,
      liquidity := none, ts := 50 }
    { market_id := 1, outcome_id := 7, prob := 3/10, volume := some 0,
      liquidity := none, ts := 10 }
    [] (by with_unfolding_all decide)

lemma ackPreserves_refl (aid : Int) (a : AlertRow) : ackPreserves aid a a :=
  ⟨rfl, rfl, rfl, rfl, rfl, rfl, rfl, rfl, rfl, rfl, Or.inl rfl, fun h => h⟩

lemma ackFirst_forall2 (aid : Int) (alerts : List AlertRow) :
    List.Forall₂ (ackPreserves aid) alerts (ackFirst alerts aid) := by
  induction alerts with
  | nil => exact List.Forall₂.nil
  | cons a rest ih =>
    unfold ackFirst
    split
    case isTrue h =>
      refine List.Forall₂.cons ?_ (List.forall₂_same.mpr (fun x _ => ackPreserves_refl aid x))
      exact ⟨rfl, rfl, rfl, rfl, rfl, rfl, rfl, rfl, rfl, rfl, Or.inr ⟨h, rfl⟩, fun _ => rfl⟩
    case isFalse h =>
      exact List.Forall₂.cons (ackPreserves_refl aid a) ih

lemma ackFirst_sets (aid : Int) (alerts : List AlertRow)
    (h : ∃ a ∈ alerts, a.id = aid) :
    ∃ a2 ∈ ackFirst alerts aid, a2.id = aid ∧ a2.status = "acknowledged" := by
  induction alerts with
  | nil => simp at h
  | cons a rest ih =>
    unfold ackFirst
    split
    case isTrue hh =>
      exact ⟨{ a with status := "acknowledged" }, by simp, hh, rfl⟩
    case isFalse hh =>
      obtain ⟨b, hb, hbid⟩ := h
      rcases List.mem_cons.mp hb with rfl | hb2
      · exact absurd hbid hh
      · obtain ⟨a2, ha2, hprop⟩ := ih ⟨b, hb2, hbid⟩
        exact ⟨a2, List.mem_cons_of_mem _ ha2, hprop⟩

lemma ackFirst_noop (aid : Int) (alerts : List AlertRow)
    (h : ∀ a ∈ alerts, a.id = aid → a.status = "acknowledged") :
    ackFirst alerts aid = alerts := by
  induction alerts with
  | nil => rfl
  | cons a rest ih =>
    unfold ackFirst
    split
    case isTrue hh =>
      have hs := h a (by simp) hh
      have : { a with status := "acknowledged" } = a := by
        cases a
        simp_all
      rw [this]
    case isFalse hh =>
      rw [ih (fun b hb => h b (List.mem_cons_of_mem _ hb))]

/-- C7: `acknowledge(alert_id)` returns NotFound iff no alert with that
id exists (in which case nothing is committed); otherwise it succeeds,
the matching row's status becomes `"acknowledged"`, every other field of
every row is unchanged, status never moves backward, and acknowledging an
already-acknowledged alert is a no-op success returning the rows
verbatim. -/
theorem c7_acknowledge_spec (alerts : List AlertRow) (aid : Int) :
    ((acknowledge_alert alerts aid = .error ()) ↔ ∀ a ∈ alerts, a.id ≠ aid) ∧
    ((∃ a ∈ alerts, a.id = aid) →
      acknowledge_alert alerts aid = .ok (ackFirst alerts aid) ∧
      List.Forall₂ (ackPreserves aid) alerts (ackFirst alerts aid) ∧
      (∃ a2 ∈ ackFirst alerts aid, a2.id = aid ∧ a2.status = "acknowledged")) ∧
    ((∃ a ∈ alerts, a.id = aid) →
      (∀ a ∈ alerts, a.id = aid → a.status = "acknowledged") →
      acknowledge_alert alerts aid = .ok alerts) := by
  refine ⟨?_, ?_, ?_⟩
  · unfold acknowledge_alert
    split
    case isTrue hany =>
      obtain ⟨a, ha, haid⟩ := List.any_eq_true.mp hany
      simp only [decide_eq_true_eq] at haid
      constructor
      · intro h
        exact absurd h (by simp)
      · intro hall
        exact absurd haid (hall a ha)
    case isFalse hany =>
      constructor
      · intro _ a ha haid
        exact hany (List.any_eq_true.mpr ⟨a, ha, decide_eq_true haid⟩)
      · intro _
        rfl
  · rintro ⟨a, ha, haid⟩
    have hok : acknowledge_alert alerts aid = .ok (ackFirst alerts aid) := by
      unfold acknowledge_alert
      rw [if_pos (List.any_eq_true.mpr ⟨a, ha, decide_eq_true haid⟩)]
    exact ⟨hok, ackFirst_forall2 aid alerts, ackFirst_sets aid alerts ⟨a, ha, haid⟩⟩
  · rintro ⟨a, ha, haid⟩ hall
    have hok : acknowledge_alert alerts aid = .ok (ackFirst alerts aid) := by
      unfold acknowledge_alert
      rw [if_pos (List.any_eq_true.mpr ⟨a, ha, decide_eq_true haid⟩)]
    rw [hok, ackFirst_noop aid alerts hall]

/-- C7 witness: the specification instantiated on a one-alert store. -/
theorem c7_witness :
    ((acknowledge_alert [alertW] 1 = .error ()) ↔ ∀ a ∈ [alertW], a.id ≠ 1) ∧
    ((∃ a ∈ [alertW], a.id = 1) →
      acknowledge_alert [alertW] 1 = .ok (ackFirst [alertW] 1) ∧
      List.Forall₂ (ackPreserves 1) [alertW] (ackFirst [alertW] 1) ∧
      (∃ a2 ∈ ackFirst [alertW] 1, a2.id = 1 ∧ a2.status = "acknowledged")) ∧
    ((∃ a ∈ [alertW], a.id = 1) →
      (∀ a ∈ [alertW], a.id = 1 → a.status = "acknowledged") →
      acknowledge_alert [alertW] 1 = .ok [alertW]) :=
  c7_acknowledge_spec [alertW] 1

/-- C9 counterexample: deleting market 1 removes its outcome and
snapshot rows but leaves the alert row referencing market 1 in place —
the claim that no Alert row referencing the deleted instrument remains
is false. -/
theorem c9_counterexample :
    delete_tracked_market storeC9 1 = .ok storeC9del ∧
    (∃ a ∈ storeC9del.alerts, a.market_id = 1) := by
  constructor
  · with_unfolding_all rfl
  · with_unfolding_all decide

/-- C9 amended: deleting an existing Instrument deletes all of its
Outcomes and all of its Snapshots (via the configured ORM cascades), but
its Alert rows are not deleted: the alert table is returned unchanged,
dangling references included. -/
theorem c9_amended_delete_cascade (st : Store) (mid : Int) :
    ((delete_tracked_market st mid = .error ()) ↔ ∀ m ∈ st.markets, m.id ≠ mid) ∧
    (∀ st2, delete_tracked_market st mid = .ok st2 →
      (∀ m ∈ st2.markets, m.id ≠ mid) ∧
      (∀ o ∈ st2.outcomes, o.market_id ≠ mid) ∧
      (∀ s ∈ st2.snapshots, s.market_id ≠ mid ∧
        ∀ o ∈ st.outcomes, o.market_id = mid → o.id ≠ s.outcome_id) ∧
      st2.alerts = st.alerts) := by
  constructor
  · unfold delete_tracked_market
    split
    case isTrue hany =>
      obtain ⟨m, hm, hmid⟩ := List.any_eq_true.mp hany
      simp only [decide_eq_true_eq] at hmid
      constructor
      · intro h
        exact absurd h (by simp)
      · intro hall
        exact absurd hmid (hall m hm)
    case isFalse hany =>
      constructor
      · intro _ m hm hmid
        exact hany (List.any_eq_true.mpr ⟨m, hm, decide_eq_true hmid⟩)
      · intro _
        rfl
  · intro st2 hok
    unfold delete_tracked_market at hok
    split at hok
    case isFalse => exact absurd hok (by simp)
    case isTrue =>
      rw [Except.ok.injEq] at hok
      subst hok
      refine ⟨?_, ?_, ?_, rfl⟩
      · intro m hm
        exact of_decide_eq_true (List.mem_filter.mp hm).2
      · intro o ho
        exact of_decide_eq_true (List.mem_filter.mp ho).2
      · intro s hs
        have h2 := of_decide_eq_true (List.mem_filter.mp hs).2
        refine ⟨h2.1, fun o ho homid => ?_⟩
        exact h2.2 o (List.mem_filter.mpr ⟨ho, decide_eq_true homid⟩)

/-- C9 witness: the amended cascade behavior evaluated on `storeC9`. -/
theorem c9_witness :
    (∀ m ∈ storeC9del.markets, m.id ≠ 1) ∧
    (∀ o ∈ storeC9del.outcomes, o.market_id ≠ 1) ∧
    (∀ s ∈ storeC9del.snapshots, s.market_id ≠ 1 ∧
      ∀ o ∈ storeC9.outcomes, o.market_id = 1 → o.id ≠ s.outcome_id) ∧
    storeC9del.alerts = storeC9.alerts :=
  (c9_amended_delete_cascade storeC9 1).2 storeC9del (by with_unfolding_all rfl)

lemma list_sum_map_div (l : List ℚ) (c : ℚ) :
    (l.map (fun x => x / c)).sum = l.sum / c := by
  induction l with
  | nil => simp
  | cons x xs ih => simp [ih, add_div]

/-- C5 counterexample: an event whose `markets` array holds two
one-outcome markets, each priced 1.  The raw prices of the batch sum to
2 > 0, yet the batch's probabilities sum to 2, not 1, and no outcome
gets `price / sum(prices)` of the batch — normalization is per market
record, not per instrument batch. -/
theorem c5_counterexample :
    0 < ((effMarkets mdC5).flatMap (fun m => m.outcomes.map effPrice)).sum ∧
    ((extract_snapshot_data mdC5).map (fun s => s.prob)).sum = 2 ∧
    ((extract_snapshot_data mdC5).map (fun s => s.prob)).sum ≠ 1 ∧
    ¬ (∀ s ∈ extract_snapshot_data mdC5,
        ∃ o ∈ (effMarkets mdC5).flatMap (fun m => m.outcomes),
          s.prob = effPrice o /
            ((effMarkets mdC5).flatMap (fun m => m.outcomes.map effPrice)).sum) := by
  with_unfolding_all decide

/-- C5 amended: normalization is per fetched market record: when a
record's raw prices sum to a positive total, each of its outcomes gets
`price / total` and the record's probabilities sum to exactly 1; when
the total is not positive, every outcome of the (non-empty) record gets
the uniform `1/N`.  A batch covering an event with several market
records therefore sums to the number of records, not necessarily 1. -/
theorem c5_amended_per_market_normalization (md : GMarketData) :
    ∀ m ∈ effMarkets md,
      (0 < (m.outcomes.map effPrice).sum →
        (∀ s ∈ extractMarket md m, ∃ o ∈ m.outcomes,
          s.prob = effPrice o / (m.outcomes.map effPrice).sum) ∧
        ((extractMarket md m).map (fun s => s.prob)).sum = 1) ∧
      (¬ 0 < (m.outcomes.map effPrice).sum → m.outcomes ≠ [] →
        ∀ s ∈ extractMarket md m, s.prob = 1 / (m.outcomes.length : ℚ)) := by
  intro m _
  constructor
  · intro hpos
    constructor
    · intro s hs
      simp only [extractMarket] at hs
      obtain ⟨o, ho, rfl⟩ := List.mem_map.mp hs
      refine ⟨o, ho, ?_⟩
      dsimp only []
      rw [if_pos hpos]
    · have hmap : (extractMarket md m).map (fun s => s.prob) =
          (m.outcomes.map effPrice).map
            (fun x => x / (m.outcomes.map effPrice).sum) := by
        simp only [extractMarket, List.map_map]
        refine List.map_congr_left ?_
        intro o _
        dsimp only [Function.comp]
        rw [if_pos hpos]
      rw [hmap, list_sum_map_div, div_self (ne_of_gt hpos)]
  · intro hneg hnonempty s hs
    simp only [extractMarket] at hs
    obtain ⟨o, ho, rfl⟩ := List.mem_map.mp hs
    have hlen : m.outcomes.length ≠ 0 := by
      simpa [List.length_eq_zero] using hnonempty
    dsimp only []
    rw [if_neg hneg, if_pos hlen]

/-- C5 witness: the amended normalization evaluated on a single-market
event with prices 1 and 3. -/
theorem c5_witness :
    (∀ s ∈ extractMarket mdW5 mW5, ∃ o ∈ mW5.outcomes,
      s.prob = effPrice o / (mW5.outcomes.map effPrice).sum) ∧
    ((extractMarket mdW5 mW5).map (fun s => s.prob)).sum = 1 :=
  (c5_amended_per_market_normalization mdW5 mW5 (by with_unfolding_all decide)).1
    (by with_unfolding_all decide)

/-- C10: every snapshot dict extracted from the same fetched market
record carries the identical market-level `volume` and `liquidity`
figures, so the detector's volume floor (`volumeBlocked`) gives the same
verdict on any two outcomes whose latest snapshots share that volume. -/
theorem c10_market_level_volume_and_liquidity (md : GMarketData) :
    ∀ m ∈ effMarkets md, ∀ s1 ∈ extractMarket md m, ∀ s2 ∈ extractMarket md m,
      s1.volume = s2.volume ∧ s1.liquidity = s2.liquidity ∧
      (∀ minVol : ℚ, volumeBlocked (some s1.volume) minVol =
        volumeBlocked (some s2.volume) minVol) := by
  intro m _ s1 hs1 s2 hs2
  simp only [extractMarket] at hs1 hs2
  obtain ⟨o1, ho1, rfl⟩ := List.mem_map.mp hs1
  obtain ⟨o2, ho2, rfl⟩ := List.mem_map.mp hs2
  exact ⟨rfl, rfl, fun _ => rfl⟩

/-- C10 witness: the two extracted outcomes of `mdW5` share volume 5 and
liquidity 2, and the volume floor treats them alike. -/
theorem c10_witness :
    (SnapData.mk (some "a") (some "Yes") (1/4) 5 (some 2)).volume =
      (SnapData.mk (some "b") (some "No") (3/4) 5 (some 2)).volume ∧
    (SnapData.mk (some "a") (some "Yes") (1/4) 5 (some 2)).liquidity =
      (SnapData.mk (some "b") (some "No") (3/4) 5 (some 2)).liquidity ∧
    (∀ minVol : ℚ,
      volumeBlocked (some (SnapData.mk (some "a") (some "Yes") (1/4) 5 (some 2)).volume) minVol =
      volumeBlocked (some (SnapData.mk (some "b") (some "No") (3/4) 5 (some 2)).volume) minVol) :=
  c10_market_level_volume_and_liquidity mdW5 mW5 (by with_unfolding_all decide)
    (SnapData.mk (some "a") (some "Yes") (1/4) 5 (some 2)) (by with_unfolding_all decide)
    (SnapData.mk (some "b") (some "No") (3/4) 5 (some 2)) (by with_unfolding_all decide)

/-- Every snapshot row produced by the ingest loop under a constant
clock carries that clock value. -/
lemma ingestLoop_ts (clock : Nat → Int) (mid : Int) (t : Int)
    (hconst : ∀ n, clock n = t) :
    ∀ (sds : List SnapData) (outs : List OutcomeRow) (nid : Int) (k : Nat),
      ∀ s ∈ (ingestLoop clock mid sds outs nid k).2.1, s.ts = t := by
  intro sds
  induction sds with
  | nil =>
    intro outs nid k s hs
    simp [ingestLoop] at hs
  | cons sd rest ih =>
    intro outs nid k s hs
    rw [ingestLoop] at hs
    split at hs
    case h_1 =>
      dsimp only [] at hs
      rcases List.mem_cons.mp hs with rfl | hs2
      · exact hconst k
      · exact ih outs nid (k + 1) s hs2
    case h_2 =>
      dsimp only [] at hs
      rcases List.mem_cons.mp hs with rfl | hs2
      · exact hconst k
      · exact ih _ _ (k + 1) s hs2

/-- C6 counterexample: one ingestion call for market 1 on a two-outcome
payload, with a clock that advances between the two per-row
`datetime.utcnow()` calls, commits two snapshot rows with timestamps 0
and 1 — the rows of one call do not share a timestamp. -/
theorem c6_counterexample :
    ((create_snapshot_for_market (fun n => (n : Int)) storeC6 1 (some mdW5)
        100 0).1.snapshots.map (fun s => s.ts)) = [0, 1] ∧
    (0 : Int) ≠ 1 := by
  constructor
  · with_unfolding_all rfl
  · decide

/-- C6 amended: one ingestion call appends its whole snapshot batch to
the store in a single commit (markets and alerts untouched), and each
row's timestamp comes from its own `utcnow()` call inside the loop — so
the rows share a timestamp exactly when the clock does not advance
during the call (e.g. under a constant clock), not unconditionally. -/
theorem c6_amended_single_commit_per_row_timestamp
    (clock : Nat → Int) (st : Store) (mid : Int) (md : Option GMarketData)
    (nid : Int) (k : Nat) :
    ∃ batch : List SnapRow,
      (create_snapshot_for_market clock st mid md nid k).1.snapshots =
        st.snapshots ++ batch ∧
      (create_snapshot_for_market clock st mid md nid k).1.markets = st.markets ∧
      (create_snapshot_for_market clock st mid md nid k).1.alerts = st.alerts ∧
      (∀ t : Int, (∀ n, clock n = t) → ∀ s ∈ batch, s.ts = t) := by
  unfold create_snapshot_for_market
  split
  case isTrue =>
    cases md with
    | none => exact ⟨[], by simp, rfl, rfl, by simp⟩
    | some m =>
      refine ⟨(ingestLoop clock mid (extract_snapshot_data m) st.outcomes nid k).2.1,
        rfl, rfl, rfl, ?_⟩
      intro t hconst s hs
      exact ingestLoop_ts clock mid t hconst _ _ _ _ s hs
  case isFalse =>
    exact ⟨[], by simp, rfl, rfl, by simp⟩

/-- C6 witness: the amended statement applied to a constant clock. -/
theorem c6_witness :
    ∃ batch : List SnapRow,
      (create_snapshot_for_market clock42 storeC6 1 (some mdW5)
          100 0).1.snapshots = storeC6.snapshots ++ batch ∧
      (create_snapshot_for_market clock42 storeC6 1 (some mdW5)
          100 0).1.markets = storeC6.markets ∧
      (create_snapshot_for_market clock42 storeC6 1 (some mdW5)
          100 0).1.alerts = storeC6.alerts ∧
      (∀ t : Int, (∀ n, clock42 n = t) → ∀ s ∈ batch, s.ts = t) :=
  c6_amended_single_commit_per_row_timestamp clock42 storeC6 1 (some mdW5) 100 0

lemma cmInv_init : CMInv CMState.init := by
  intro m
  simp [CMState.init]

lemma cmInv_connect {st : CMState} (h : CMInv st) (ws : Nat) (mid : Int) :
    CMInv (st.connect ws mid) := by
  intro m
  unfold CMState.connect
  dsimp only []
  by_cases hm : m = mid
  · subst hm
    have hconns : (if ws ∈ st.active_connections m then st.active_connections m
        else st.active_connections m ++ [ws]) ≠ [] := by
      split
      · rename_i hmem
        exact List.ne_nil_of_mem hmem
      · simp
    have htask : (if st.broadcast_tasks m then st.broadcast_tasks
        else fun m2 => if m2 = m then true else st.broadcast_tasks m2) m = true := by
      split
      · rename_i hb
        exact hb
      · simp
    rw [if_pos rfl]
    exact iff_of_true htask hconns
  · rw [if_neg hm]
    have htask : (if st.broadcast_tasks mid then st.broadcast_tasks
        else fun m2 => if m2 = mid then true else st.broadcast_tasks m2) m =
        st.broadcast_tasks m := by
      split
      · rfl
      · exact if_neg hm
    rw [htask]
    exact h m

lemma cmInv_disconnect {st : CMState} (h : CMInv st) (ws : Nat) :
    CMInv (st.disconnect ws) := by
  unfold CMState.disconnect
  split
  · exact h
  case h_2 mid hcm =>
    split
    · exact h
    case isFalse hmid0 =>
      dsimp only []
      split
      case isTrue hempty =>
        intro m
        dsimp only []
        by_cases hm : m = mid
        · subst hm
          simp
        · rw [if_neg hm, if_neg hm]
          exact h m
      case isFalse hnon =>
        intro m
        dsimp only []
        by_cases hm : m = mid
        · subst hm
          rw [if_pos rfl]
          have hconns2 : (st.active_connections m).filter
              (fun w => decide (w ≠ ws)) ≠ [] := by
            intro hc
            rw [List.isEmpty_eq_true] at hnon
            · exact hnon hc
          have horig : st.active_connections m ≠ [] := by
            intro hc
            apply hconns2
            rw [hc]
            rfl
          exact iff_of_true ((h m).mpr horig) hconns2
        · rw [if_neg hm]
          exact h m

/-- Every reachable registry state satisfies the lifecycle invariant. -/
lemma cm_reachable_inv {st : CMState} (h : CMReachable st) : CMInv st := by
  induction h with
  | init => exact cmInv_init
  | connect st1 ws mid _ ih => exact cmInv_connect ih ws mid
  | disconnect st1 ws _ ih => exact cmInv_disconnect ih ws

/-- On every reachable state, a socket registered in
`connection_markets` is a member of its market's connection set — in
particular `self.active_connections[market_id]` in `disconnect` never
raises `KeyError`, and the total-function view of the dicts coincides
with the source's key-presence view. -/
lemma cm_connection_market_mem {st : CMState} (h : CMReachable st) :
    ∀ ws mid, st.connection_markets ws = some mid →
      ws ∈ st.active_connections mid := by
  induction h with
  | init =>
    intro ws mid hcm
    simp [CMState.init] at hcm
  | connect st1 ws2 mid2 _ ih =>
    intro ws mid hcm
    unfold CMState.connect at hcm ⊢
    dsimp only [] at hcm ⊢
    by_cases hw : ws = ws2
    · subst hw
      rw [if_pos rfl] at hcm
      injection hcm with hm
      subst hm
      rw [if_pos rfl]
      split
      · rename_i hmem
        exact hmem
      · exact List.mem_append.mpr (Or.inr (by simp))
    · rw [if_neg hw] at hcm
      have hmem := ih ws mid hcm
      by_cases hm : mid = mid2
      · subst hm
        rw [if_pos rfl]
        split
        · exact hmem
        · exact List.mem_append.mpr (Or.inl hmem)
      · rw [if_neg hm]
        exact hmem
  | disconnect st1 ws2 _ ih =>
    intro ws mid hcm
    unfold CMState.disconnect at hcm ⊢
    cases hcm2 : st1.connection_markets ws2 with
    | none =>
      rw [hcm2] at hcm
      try dsimp only [] at hcm
      try dsimp only []
      exact ih ws mid hcm
    | some mid2 =>
      rw [hcm2] at hcm
      try dsimp only [] at hcm
      try dsimp only []
      by_cases hm0 : mid2 = 0
      · rw [if_pos hm0] at hcm ⊢
        exact ih ws mid hcm
      · rw [if_neg hm0] at hcm ⊢
        try dsimp only [] at hcm
        try dsimp only []
        by_cases hw : ws = ws2
        · subst hw
          split at hcm <;> simp at hcm
        · split
          · rename_i hempty
            rw [if_pos hempty] at hcm
            try dsimp only [] at hcm
            rw [if_neg hw] at hcm
            have hmem := ih ws mid hcm
            dsimp only []
            by_cases hm : mid = mid2
            · subst hm
              exfalso
              have hin : ws ∈ (st1.active_connections mid).filter
                  (fun w => decide (w ≠ ws2)) :=
                List.mem_filter.mpr ⟨hmem, by simp [hw]⟩
              rw [List.isEmpty_eq_true] at hempty
              rw [hempty] at hin
              simp at hin
            · rw [if_neg hm]
              exact hmem
          · rename_i hnone
            rw [if_neg hnone] at hcm
            try dsimp only [] at hcm
            rw [if_neg hw] at hcm
            have hmem := ih ws mid hcm
            try dsimp only []
            by_cases hm : mid = mid2
            · subst hm
              rw [if_pos rfl]
              exact List.mem_filter.mpr ⟨hmem, by simp [hw]⟩
            · rw [if_neg hm]
              exact hmem

/-- C8 counterexample: attach the only subscriber (socket 1) to
instrument 0, then detach it.  Because `disconnect` guards with
`if market_id:` and the id 0 is falsy in Python, the detach is a no-op:
the broadcast-loop task for instrument 0 is not cancelled (and the
socket even stays registered) — "detaching the last subscriber cancels
the loop" fails for instrument id 0. -/
theorem c8_counterexample :
    ((CMState.init.connect 1 0).active_connections 0 = [1]) ∧
    ((CMState.init.connect 1 0).connection_markets 1 = some 0) ∧
    ((CMState.init.connect 1 0).broadcast_tasks 0 = true) ∧
    (((CMState.init.connect 1 0).disconnect 1).broadcast_tasks 0 = true) ∧
    (((CMState.init.connect 1 0).disconnect 1).active_connections 0 = [1]) := by
  with_unfolding_all decide

/-- C8 amended: on every reachable registry state a broadcast-loop task
exists for an instrument iff the instrument has at least one attached
subscriber; attaching the first subscriber starts exactly one loop
(no task existed before, one exists after), attaching a further
subscriber while one is active leaves the task map untouched, and
detaching the last subscriber cancels the loop — for every instrument
with a *nonzero* id; for instrument id 0 the detach is a no-op (Python
truthiness of `if market_id:`), leaving subscriber and loop in place. -/
theorem c8_amended_broadcast_lifecycle :
    (∀ st : CMState, CMReachable st → CMInv st) ∧
    (∀ (st : CMState) (ws : Nat) (mid : Int), CMReachable st →
      st.active_connections mid = [] →
      st.broadcast_tasks mid = false ∧
      (st.connect ws mid).broadcast_tasks mid = true) ∧
    (∀ (st : CMState) (ws : Nat) (mid : Int), st.broadcast_tasks mid = true →
      (st.connect ws mid).broadcast_tasks = st.broadcast_tasks) ∧
    (∀ (st : CMState) (ws : Nat) (mid : Int), mid ≠ 0 →
      st.connection_markets ws = some mid →
      st.active_connections mid = [ws] →
      (st.disconnect ws).broadcast_tasks mid = false ∧
      (st.disconnect ws).active_connections mid = []) := by
  refine ⟨fun st h => cm_reachable_inv h, ?_, ?_, ?_⟩
  · intro st ws mid h hempty
    have hinv := cm_reachable_inv h
    have hfalse : st.broadcast_tasks mid = false := by
      rcases Bool.eq_false_or_eq_true (st.broadcast_tasks mid) with hb | hb
      · exact absurd hempty ((hinv mid).mp hb)
      · exact hb
    refine ⟨hfalse, ?_⟩
    unfold CMState.connect
    dsimp only []
    rw [hfalse]
    simp
  · intro st ws mid htrue
    unfold CMState.connect
    dsimp only []
    rw [if_pos htrue]
  · intro st ws mid hmid0 hcm hsingle
    unfold CMState.disconnect
    rw [hcm]
    dsimp only []
    rw [if_neg hmid0]
    try dsimp only []
    have hconns2 : (st.active_connections mid).filter (fun w => decide (w ≠ ws)) = [] := by
      rw [hsingle]
      simp
    rw [hconns2]
    simp

/-- C8 witness: for a nonzero instrument id (5), detaching the only
subscriber cancels the loop and empties the subscriber set. -/
theorem c8_witness :
    ((CMState.init.connect 1 5).disconnect 1).broadcast_tasks 5 = false ∧
    ((CMState.init.connect 1 5).disconnect 1).active_connections 5 = [] :=
  c8_amended_broadcast_lifecycle.2.2.2 (CMState.init.connect 1 5) 1 5
    (by decide) (by with_unfolding_all decide) (by with_unfolding_all decide)
